import Mathlib

/-!
Verification of the tabular-structure extraction engine of ClaryAI
(`src/table_parser_improved.py` and `src/table_parser.py`).

Python strings are modelled as lists of characters (`PyStr`); the Python
`dict` returns of the parsers are modelled by the `StructuredTable`
structure whose fields are `Option`s, a field being `none` exactly when the
corresponding key is absent from the returned dict.  The pandas calls
`pd.DataFrame(...)`/`df.to_dict(orient='records')` are modelled by
`dataFrameRecords` (with explicit columns) and `dataFrameNoCols` (without).
Exceptions are modelled by `Option`: a helper returning `none` stands for a
raised exception, which the top-level `try/except` of `parse_text_table` /
`parse_html_table` converts into the bare error dict of the source.
-/

namespace ClaryAI

/-- Python strings, modelled as lists of characters. -/
abbrev PyStr := List Char

/-- Conversion from Lean string literals. -/
def toStr (s : String) : PyStr := s.toList

/-- The characters Python's `str.strip()` removes and `\s` matches:
space, tab, newline, carriage return, vertical tab, form feed. -/
def isWs (c : Char) : Bool :=
  c = ' ' || c = '\t' || c = '\n' || c = '\r' || c = Char.ofNat 11 || c = Char.ofNat 12

/-- Python `s.strip()`. -/
def pyStrip (s : PyStr) : PyStr :=
  ((s.dropWhile isWs).reverse.dropWhile isWs).reverse

/-- Python `s.split(sep)` for a one-character separator: keeps empty parts,
always returns at least one part. -/
def splitOnChar (sep : Char) : PyStr → List PyStr
  | [] => [[]]
  | c :: rest =>
    if c = sep then [] :: splitOnChar sep rest
    else
      match splitOnChar sep rest with
      | t :: ts => (c :: t) :: ts
      | [] => [[c]]

/-- Python `text.split('\n')`. -/
def pyLines (s : PyStr) : List PyStr := splitOnChar '\n' s

/-- Python `pat in s` (substring containment). -/
def isSubstr (pat : PyStr) : PyStr → Bool
  | [] => pat.isPrefixOf []
  | c :: rest => pat.isPrefixOf (c :: rest) || isSubstr pat rest

/-- Python `s[a:b]` for `0 ≤ a ≤ b` (indices clamped at the length). -/
def pySlice (s : PyStr) (a b : Nat) : PyStr := (s.take b).drop a

/-- Worker for `pySplitWs2`, structurally recursive on a fuel that is
bounded below by the length of the remaining input (each step consumes at
least one character, so the fuel never runs out on the real input). -/
def splitWs2Fuel : Nat → PyStr → PyStr → List PyStr
  | 0, acc, _ => [acc.reverse]
  | _ + 1, acc, [] => [acc.reverse]
  | n + 1, acc, c :: rest =>
    if isWs c && isWs (rest.headD 'x') then
      acc.reverse :: splitWs2Fuel n [] (rest.dropWhile isWs)
    else
      splitWs2Fuel n (c :: acc) rest

/-- Python `re.split(r'\s{2,}', s)`: split on maximal runs of at least two
whitespace characters; a lone whitespace character stays inside its token. -/
def pySplitWs2 (s : PyStr) : List PyStr := splitWs2Fuel s.length [] s

/-- Worker for `pySplitWhite`; same fuel discipline as `splitWs2Fuel`. -/
def splitWhiteFuel : Nat → PyStr → List PyStr
  | 0, _ => []
  | _ + 1, [] => []
  | n + 1, c :: rest =>
    if isWs c then splitWhiteFuel n rest
    else
      (c :: rest.takeWhile (fun d => !isWs d)) ::
        splitWhiteFuel n (rest.dropWhile (fun d => !isWs d))

/-- Python `s.split()` (no argument): whitespace-run tokens, empties dropped. -/
def pySplitWhite (s : PyStr) : List PyStr := splitWhiteFuel s.length s

/-- Insertion into a Python dict modelled as an association list kept in
insertion order: an existing key is overwritten in place, a new key is
appended. -/
def dictInsert (d : List (PyStr × PyStr)) (k v : PyStr) : List (PyStr × PyStr) :=
  if d.any (fun p => p.1 = k) then d.map (fun p => if p.1 = k then (k, v) else p)
  else d ++ [(k, v)]

/-- Python `dict(zip(ks, vs))`, the record built by
`df.to_dict(orient='records')` for one row. -/
def dictOfZip (ks vs : List PyStr) : List (PyStr × PyStr) :=
  (List.zip ks vs).foldl (fun d kv => dictInsert d kv.1 kv.2) []

/-- The dicts returned by the parsers.  A field is `none` when the Python
dict does not carry the corresponding key. -/
structure StructuredTable where
  type : PyStr := toStr "Table"
  headers : Option (List PyStr) := none
  data : Option (List (List (PyStr × PyStr))) := none
  numRows : Option Nat := none
  numCols : Option Nat := none
  error : Option PyStr := none
deriving Repr, DecidableEq

/-- `pd.DataFrame(rows, columns=headers)` followed by
`df.to_dict(orient='records')`, `len(df)` and `len(df.columns)`.
The constructor raises when the row widths do not match the number of
columns; this is modelled as `none`.  (Every call site below normalises the
rows to exactly the header width first, so the failure never fires.) -/
def dataFrameRecords (headers : List PyStr) (rows : List (List PyStr)) :
    Option (List (List (PyStr × PyStr)) × Nat × Nat) :=
  if rows.all (fun r => r.length = headers.length) then
    some (rows.map (fun r => dictOfZip headers r), rows.length, headers.length)
  else none

/-- The inferred column count of `pd.DataFrame(rows)`: the widest row. -/
def dfWidth (rows : List (List PyStr)) : Nat :=
  rows.foldl (fun m r => max m r.length) 0

/-- The column labels of `pd.DataFrame(rows)`: `0 .. width-1` (integers in
Python, modelled as decimal strings). -/
def dfCols (rows : List (List PyStr)) : List PyStr :=
  (List.range (dfWidth rows)).map (fun i => toStr (toString i))

/-- `pd.DataFrame(rows)` without explicit columns: short rows are padded
with `NaN` (modelled as the string `"NaN"`).  Returns
`(df.columns.tolist(), records, len(df), len(df.columns))`. -/
def dataFrameNoCols (rows : List (List PyStr)) :
    List PyStr × List (List (PyStr × PyStr)) × Nat × Nat :=
  (dfCols rows,
   rows.map (fun r =>
     dictOfZip (dfCols rows) (r ++ List.replicate (dfWidth rows - r.length) (toStr "NaN"))),
   rows.length, dfWidth rows)

/-- A Python loop `for x in xs: ...; if cond: acc.append(f x)`, with the
per-element work packaged as an `Option`-valued function. -/
def pyAppendLoop (g : α → Option β) (xs : List α) : List β :=
  xs.foldl (fun acc x => match g x with | some y => acc ++ [y] | none => acc) []

theorem pyAppendLoop_eq_filterMap (g : α → Option β) (xs : List α) :
    pyAppendLoop g xs = xs.filterMap g := by
  suffices h : ∀ (acc : List β),
      xs.foldl (fun acc x => match g x with | some y => acc ++ [y] | none => acc) acc
        = acc ++ xs.filterMap g by
    simpa [pyAppendLoop] using h []
  induction xs with
  | nil => intro acc; simp
  | cons x xs ih =>
    intro acc
    cases hg : g x <;> simp [List.foldl_cons, hg, ih, List.filterMap_cons]

theorem mem_pyAppendLoop {g : α → Option β} {xs : List α} {y : β}
    (h : y ∈ pyAppendLoop g xs) : ∃ x ∈ xs, g x = some y := by
  rw [pyAppendLoop_eq_filterMap] at h
  simpa using List.mem_filterMap.mp h

/-- Return value `{"type": "Table", "data": [], "headers": [], "error": "Empty table"}`. -/
def emptyTableError : StructuredTable :=
  { data := some [], headers := some [], error := some (toStr "Empty table") }

/-- Return value `{"type": "Table", "data": [], "headers": headers,
"error": "No data found in table"}` (the `headers` variable of the caller). -/
def noDataTable (headers : List PyStr) : StructuredTable :=
  { data := some [], headers := some headers, error := some (toStr "No data found in table") }

/-- The two successive row-width normalisation list comprehensions
`rows = [row + [''] * (len(headers) - len(row)) for row in rows if len(row) <= len(headers)]`
`rows = [row[:len(headers)] for row in rows if len(row) > len(headers)]`
of `parse_html_table` (both files) and of the old `_parse_fixed_width_table`. -/
def normalizeRowWidths (n : Nat) (rows : List (List PyStr)) : List (List PyStr) :=
  (((rows.filter (fun r => r.length ≤ n)).map
      (fun r => r ++ List.replicate (n - r.length) ([] : PyStr))).filter
    (fun r => n < r.length)).map (fun r => r.take n)

/-- The final `if headers and rows: ... elif rows: ... else: ...` block shared
verbatim by `_parse_markdown_table`, `_parse_financial_table` and
`_parse_space_separated_table` (both source files): build the DataFrame and
the structured-JSON dict.  `none` models a raised pandas exception. -/
def assembleTable (headers : List PyStr) (rows : List (List PyStr)) :
    Option StructuredTable :=
  if headers ≠ [] ∧ rows ≠ [] then
    (dataFrameRecords headers rows).map (fun t =>
      { headers := some headers, data := some t.1,
        numRows := some t.2.1, numCols := some t.2.2 })
  else if rows ≠ [] then
    some { headers := some headers, data := some (dataFrameNoCols rows).2.1,
           numRows := some (dataFrameNoCols rows).2.2.1,
           numCols := some (dataFrameNoCols rows).2.2.2 }
  else
    some (noDataTable headers)

/-- `[line for line in text_table.split('\n') if line.strip()]` — the line
list used by the financial, space-separated and fixed-width parsers (lines
are kept unstripped). -/
def tableLines (s : PyStr) : List PyStr :=
  (pyLines s).filter (fun l => pyStrip l ≠ [])

/-! ### The markdown parser

`_parse_markdown_table` is character-identical in `table_parser_improved.py`
(lines 119–156) and `table_parser.py` (lines 111–148); it is embedded once. -/

/-- `[line.strip() for line in md_table.split('\n') if line.strip()]`. -/
def mdLines (s : PyStr) : List PyStr :=
  ((pyLines s).map pyStrip).filter (fun l => l ≠ [])

/-- `[cell.strip() for cell in row.split('|') if cell.strip()]` — the
non-empty trimmed pipe-separated segments of a line, in order. -/
def mdCells (row : PyStr) : List PyStr :=
  ((splitOnChar '|' row).map pyStrip).filter (fun c => c ≠ [])

/-- The markdown header list: cells of `lines[0] if lines else ""`. -/
def mdHeaders (s : PyStr) : List PyStr := mdCells ((mdLines s).headD [])

/-- `cells + [''] * (len(headers) - len(cells)) if len(cells) < len(headers)
else cells[:len(headers)]`. -/
def mdNormalize (n : Nat) (cells : List PyStr) : List PyStr :=
  if cells.length < n then cells ++ List.replicate (n - cells.length) ([] : PyStr)
  else cells.take n

/-- The markdown data-row loop over `lines[2:]`. -/
def mdRows (s : PyStr) : List (List PyStr) :=
  pyAppendLoop
    (fun row =>
      let cells := mdCells row
      if cells ≠ [] then some (mdNormalize (mdHeaders s).length cells) else none)
    ((mdLines s).drop 2)

/-- `_parse_markdown_table` (identical in both source files). -/
def parse_markdown_table (s : PyStr) : Option StructuredTable :=
  assembleTable (mdHeaders s) (mdRows s)

/-! ### The HTML parser

`parse_html_table` is character-identical in both source files.  The
BeautifulSoup extraction (lines 44–56) is outside the embedding: the
function below takes the extracted `headers` and the list of per-`<tr>`
stripped cell texts as inputs and models lines 58–87. -/

/-- The candidate rows of `parse_html_table`: all `<tr>` cell lists but the
first when headers were found, empty rows skipped (lines 58–63). -/
def htmlCandidateRows (headers : List PyStr) (trs : List (List PyStr)) :
    List (List PyStr) :=
  (if headers ≠ [] then trs.drop 1 else trs).filter (fun r => r ≠ [])

/-- The `try` body of `parse_html_table` after the BeautifulSoup extraction
(lines 65–83 of both source files); `none` models a raised pandas exception.
The returned `headers` key is `headers if headers else df.columns.tolist()`. -/
def htmlBody (headers : List PyStr) (trs : List (List PyStr)) :
    Option StructuredTable :=
  if headers ≠ [] ∧ htmlCandidateRows headers trs ≠ [] then
    (dataFrameRecords headers
        (normalizeRowWidths headers.length (htmlCandidateRows headers trs))).map (fun t =>
      { headers := some (if headers ≠ [] then headers else headers),
        data := some t.1, numRows := some t.2.1, numCols := some t.2.2 })
  else if htmlCandidateRows headers trs ≠ [] then
    some { headers := some (if headers ≠ [] then headers
                            else (dataFrameNoCols (htmlCandidateRows headers trs)).1),
           data := some (dataFrameNoCols (htmlCandidateRows headers trs)).2.1,
           numRows := some (dataFrameNoCols (htmlCandidateRows headers trs)).2.2.1,
           numCols := some (dataFrameNoCols (htmlCandidateRows headers trs)).2.2.2 }
  else
    some (noDataTable [])

/-- `parse_html_table` from the extracted headers and `<tr>` cell texts
(lines 58–87 of both source files). -/
def parse_html_table (headers : List PyStr) (trs : List (List PyStr)) :
    StructuredTable :=
  match htmlBody headers trs with
  | some t => t
  | none => { error := some (toStr "Failed to parse HTML table") }

/-! ### `table_parser_improved.py` -/

namespace Improved

/-- The `if len(cells) < len(headers): pad elif len(cells) > len(headers):
truncate` normalisation of the financial and space-separated parsers. -/
def ssNormalize (n : Nat) (cells : List PyStr) : List PyStr :=
  if cells.length < n then cells ++ List.replicate (n - cells.length) ([] : PyStr)
  else if n < cells.length then cells.take n
  else cells

/-- The space-separated header list: `re.split(r'\s{2,}', lines[0].strip())`
(line 316). -/
def ssHeaders (s : PyStr) : List PyStr :=
  pySplitWs2 (pyStrip ((tableLines s).headD []))

/-- The space-separated data-row loop over `lines[1:]` (lines 319–332). -/
def ssRows (s : PyStr) : List (List PyStr) :=
  pyAppendLoop
    (fun row =>
      let cells := pySplitWs2 (pyStrip row)
      if cells ≠ [] ∧ cells.any (fun c => c ≠ []) then
        some (ssNormalize (ssHeaders s).length cells)
      else none)
    ((tableLines s).drop 1)

/-- `_parse_space_separated_table` (lines 303–349). -/
def parse_space_separated_table (s : PyStr) : Option StructuredTable :=
  if tableLines s = [] then some emptyTableError
  else assembleTable (ssHeaders s) (ssRows s)

/-- The separator-line test of `_parse_financial_table` (line 213):
`re.match(r'^[-=]+$', line.strip()) or all(c in '-=+' for c in line.strip())`. -/
def finIsSep (l : PyStr) : Bool :=
  let t := pyStrip l
  (!t.isEmpty && t.all (fun c => c = '-' || c = '=')) ||
    t.all (fun c => c = '-' || c = '=' || c = '+')

/-- The separator indices of `_parse_financial_table` (lines 211–214). -/
def finSepIdx (lines : List PyStr) : List Nat :=
  (List.range lines.length).filter (fun i => finIsSep (lines.getD i []))

/-- Header row (possibly absent, `None` in the source) and data rows of
`_parse_financial_table` (lines 216–244). -/
def finHeaderData (lines : List PyStr) : Option PyStr × List PyStr :=
  let seps := finSepIdx lines
  if seps ≠ [] then
    let hIdx := if seps.headD 0 = 0 then 1 else 0
    let hRow := if hIdx < lines.length then some (lines.getD hIdx []) else none
    let dRows := ((List.range lines.length).filter
        (fun i => !(seps.contains i) && i != hIdx)).map (fun i => lines.getD i [])
    (hRow, dRows)
  else
    match lines.findIdx? (fun l =>
        isSubstr (toStr "Item") l || isSubstr (toStr "Description") l ||
          isSubstr (toStr "Product") l) with
    | some i => (some (lines.getD i []), lines.drop (i + 1))
    | none => (some (lines.headD []), lines.drop 1)

/-- The financial header list (lines 246–264), including the synthesised
default headers when none could be split out of the header row. -/
def finHeaders (lines : List PyStr) : List PyStr :=
  let hd := finHeaderData lines
  let headers :=
    match hd.1 with
    | some l => if l ≠ [] then pySplitWs2 (pyStrip l) else []
    | none => []
  if headers ≠ [] then headers
  else
    let maxCols := hd.2.foldl (fun m r => max m (pySplitWs2 (pyStrip r)).length) 0
    if 3 ≤ maxCols then (List.map toStr ["Item", "Quantity", "Price", "Total"]).take maxCols
    else (List.map toStr ["Item", "Value", "Total"]).take maxCols

/-- The financial data-row loop (lines 266–284): summary rows beginning with
`Total`/`Subtotal` are skipped before the cells are split and normalised. -/
def finRows (lines : List PyStr) : List (List PyStr) :=
  pyAppendLoop
    (fun row =>
      if (toStr "Total").isPrefixOf (pyStrip row) ||
          (toStr "Subtotal").isPrefixOf (pyStrip row) then none
      else
        let cells := pySplitWs2 (pyStrip row)
        if cells ≠ [] ∧ cells.any (fun c => c ≠ []) then
          some (ssNormalize (finHeaders lines).length cells)
        else none)
    (finHeaderData lines).2

/-- `_parse_financial_table` (lines 202–301). -/
def parse_financial_table (s : PyStr) : Option StructuredTable :=
  if tableLines s = [] then some emptyTableError
  else assembleTable (finHeaders (tableLines s)) (finRows (tableLines s))

/-- The separator-line test of `_parse_fixed_width_table` (line 172):
`re.match(r'^[-=+]+$', line.strip()) or all(c in '-=+|' for c in line.strip())`. -/
def fwIsSep (l : PyStr) : Bool :=
  let t := pyStrip l
  (!t.isEmpty && t.all (fun c => c = '-' || c = '=' || c = '+')) ||
    t.all (fun c => c = '-' || c = '=' || c = '+' || c = '|')

/-- `_parse_fixed_width_table` of `table_parser_improved.py` (lines 158–200).
The body that should populate `headers` and `rows` is elided in the source
(`# (Rest of the existing implementation)` / `# ...`), so both stay empty and
control always reaches the final `else` branch. -/
def parse_fixed_width_table (s : PyStr) : Option StructuredTable :=
  let lines := tableLines s
  if lines = [] then some emptyTableError
  else
    let _seps := (List.range lines.length).filter (fun i => fwIsSep (lines.getD i []))
    some (noDataTable [])

/-- Dispatch test 1 (line 101): markdown. -/
def mdTrigger (s : PyStr) : Bool :=
  isSubstr (toStr "|") s && (isSubstr (toStr "-+-") s || isSubstr (toStr "---|---") s)

/-- Dispatch test 2 (line 105): financial. -/
def finTrigger (s : PyStr) : Bool :=
  isSubstr (toStr "$") s && isSubstr (toStr "Total") s

/-- Dispatch test 3 (line 109): space-separated. -/
def ssTrigger (s : PyStr) : Bool :=
  decide (2 ≤ (s.count '\n')) && (pyLines s).any (fun l => isSubstr (toStr "  ") l)

/-- Which parser `parse_text_table` routes a block to. -/
inductive ParserKind where
  | markdown
  | financial
  | space
  | fixedWidth
deriving Repr, DecidableEq

/-- The dispatcher of `parse_text_table` (lines 99–113) as a classifier. -/
def classify (s : PyStr) : ParserKind :=
  if mdTrigger s then .markdown
  else if finTrigger s then .financial
  else if ssTrigger s then .space
  else .fixedWidth

/-- The `except` branch of `parse_text_table`:
`{"type": "Table", "error": "Failed to parse text table: ..."}`. -/
def textFallbackTable : StructuredTable :=
  { error := some (toStr "Failed to parse text table") }

/-- Unwrap a parser body, converting a raised exception (`none`) into the
`except`-branch dict. -/
def runBody (b : Option StructuredTable) : StructuredTable :=
  b.getD textFallbackTable

/-- `parse_text_table` of `table_parser_improved.py` (lines 89–117). -/
def parse_text_table (s : PyStr) : StructuredTable :=
  runBody
    (if mdTrigger s then parse_markdown_table s
     else if finTrigger s then parse_financial_table s
     else if ssTrigger s then parse_space_separated_table s
     else parse_fixed_width_table s)

end Improved

/-! ### `table_parser.py` (the older revision) -/

namespace Orig

/-- Column boundaries from a separator line (lines 182–189): a run of rule
characters `-=+` starts a column at its first index, a space while inside a
run ends it; any other character leaves the state unchanged. -/
def sepBoundariesGo : Nat → Bool → PyStr → List Nat
  | _, _, [] => []
  | i, inSep, c :: rest =>
    if (c = '-' || c = '=' || c = '+') && !inSep then
      i :: sepBoundariesGo (i + 1) true rest
    else if c = ' ' && inSep then sepBoundariesGo (i + 1) false rest
    else sepBoundariesGo (i + 1) inSep rest

def sepBoundaries (l : PyStr) : List Nat := sepBoundariesGo 0 false l

/-- `find_boundaries` (lines 228–237): the start index of every
space-delimited word run of a line (only the space character ends a word). -/
def wordStartsGo : Nat → Bool → PyStr → List Nat
  | _, _, [] => []
  | i, inWord, c :: rest =>
    if c ≠ ' ' && !inWord then i :: wordStartsGo (i + 1) true rest
    else if c = ' ' && inWord then wordStartsGo (i + 1) false rest
    else wordStartsGo (i + 1) inWord rest

def wordStarts (l : PyStr) : List Nat := wordStartsGo 0 false l

/-- Header slicing in the separator branch (lines 193–201): a slice is kept
only when the boundary moved, plus the trailing slice when characters remain. -/
def fwSepHeaderCells (line : PyStr) (bs : List Nat) : List PyStr :=
  let st := bs.foldl
    (fun (st : Nat × List PyStr) b =>
      (b, if st.1 < b then st.2 ++ [pyStrip (pySlice line st.1 b)] else st.2))
    (0, [])
  if st.1 < line.length then st.2 ++ [pyStrip (pySlice line st.1 line.length)] else st.2

/-- Data-row slicing in the separator branch (lines 210–218): as for the
header, but a slice is also dropped when the boundary lies past the line end. -/
def fwSepDataCells (line : PyStr) (bs : List Nat) : List PyStr :=
  let st := bs.foldl
    (fun (st : Nat × List PyStr) b =>
      (b, if st.1 < b ∧ b ≤ line.length then st.2 ++ [pyStrip (pySlice line st.1 b)]
          else st.2))
    (0, [])
  if st.1 < line.length then st.2 ++ [pyStrip (pySlice line st.1 line.length)] else st.2

/-- Slicing in the no-separator branch (lines 245–250 and 259–265): every
slice is appended unconditionally, plus the unconditional trailing slice. -/
def fwNoSepCells (line : PyStr) (bs : List Nat) : List PyStr :=
  let st := bs.foldl
    (fun (st : Nat × List PyStr) b => (b, st.2 ++ [pyStrip (pySlice line st.1 b)]))
    (0, [])
  st.2 ++ [pyStrip (pySlice line st.1 line.length)]

/-- Header/row extraction of the old `_parse_fixed_width_table`
(lines 158–269).  `none` models the uncaught `IndexError` raised by
`header_row = lines[header_idx]` when a lone separator line makes
`header_idx` run past the end. -/
def fwExtract (lines : List PyStr) : Option (List PyStr × List (List PyStr)) :=
  let seps := (List.range lines.length).filter (fun i => Improved.fwIsSep (lines.getD i []))
  if seps ≠ [] then
    let hIdx := if seps.headD 0 = 0 then 1 else 0
    match lines.get? hIdx with
    | none => none
    | some headerRow =>
      let dataRows := ((List.range lines.length).filter
          (fun i => !(seps.contains i) && i != hIdx)).map (fun i => lines.getD i [])
      let bs := sepBoundaries (lines.getD (seps.headD 0) [])
      let headers :=
        if bs ≠ [] then fwSepHeaderCells headerRow bs
        else (pySplitWhite headerRow).filter (fun h => h ≠ [])
      let rows :=
        pyAppendLoop
          (fun line =>
            let row :=
              if bs ≠ [] then fwSepDataCells line bs
              else (pySplitWhite line).filter (fun c => c ≠ [])
            if row ≠ [] then some row else none)
          dataRows
      some (headers, rows)
  else
    let first := lines.headD []
    let bs := wordStarts first
    let headers := if bs ≠ [] then fwNoSepCells first bs else pySplitWhite first
    let rows := (lines.drop 1).map
      (fun line => if bs ≠ [] then fwNoSepCells line bs else pySplitWhite line)
    some (headers, rows)

/-- The final `if headers and rows: ... elif rows: ... else: ...` block of the
old `_parse_fixed_width_table` (lines 271–289), including the two successive
row-width normalisation comprehensions (lines 274–275). -/
def fwAssemble (headers : List PyStr) (rows : List (List PyStr)) :
    Option StructuredTable :=
  if headers ≠ [] ∧ rows ≠ [] then
    (dataFrameRecords headers (normalizeRowWidths headers.length rows)).map (fun t =>
      { headers := some headers, data := some t.1,
        numRows := some t.2.1, numCols := some t.2.2 })
  else if rows ≠ [] then
    some { headers := some headers, data := some (dataFrameNoCols rows).2.1,
           numRows := some (dataFrameNoCols rows).2.2.1,
           numCols := some (dataFrameNoCols rows).2.2.2 }
  else
    some (noDataTable headers)

/-- `_parse_fixed_width_table` of `table_parser.py` (lines 150–289). -/
def parse_fixed_width_table (s : PyStr) : Option StructuredTable :=
  let lines := tableLines s
  if lines = [] then some emptyTableError
  else
    match fwExtract lines with
    | none => none
    | some hr => fwAssemble hr.1 hr.2

/-- Dispatch test of the old `parse_text_table` (line 101):
`'|' in text_table and '-+-' in text_table or '---|---' in text_table`
(Python precedence: the `and` binds tighter than the `or`). -/
def mdTrigger (s : PyStr) : Bool :=
  (isSubstr (toStr "|") s && isSubstr (toStr "-+-") s) || isSubstr (toStr "---|---") s

/-- `parse_text_table` of `table_parser.py` (lines 89–109); the markdown
parser it calls is character-identical to the embedded
`ClaryAI.parse_markdown_table`. -/
def parse_text_table (s : PyStr) : StructuredTable :=
  Improved.runBody
    (if mdTrigger s then parse_markdown_table s else parse_fixed_width_table s)

end Orig

/-! ### General lemmas about the embedded primitives -/

theorem splitWs2Fuel_ne_nil (n : Nat) (acc s : PyStr) : splitWs2Fuel n acc s ≠ [] := by
  induction n generalizing acc s with
  | zero => simp [splitWs2Fuel]
  | succ n ih =>
    cases s with
    | nil => simp [splitWs2Fuel]
    | cons c rest =>
      rw [splitWs2Fuel]
      split
      · simp
      · exact ih _ _

theorem pySplitWs2_ne_nil (s : PyStr) : pySplitWs2 s ≠ [] :=
  splitWs2Fuel_ne_nil _ _ _

theorem mdNormalize_length (n : Nat) (cells : List PyStr) :
    (mdNormalize n cells).length = n := by
  unfold mdNormalize
  split <;> rename_i h
  · simp only [List.length_append, List.length_replicate]
    omega
  · simp only [List.length_take]
    omega

theorem ssNormalize_length (n : Nat) (cells : List PyStr) :
    (Improved.ssNormalize n cells).length = n := by
  unfold Improved.ssNormalize
  split <;> rename_i h
  · simp only [List.length_append, List.length_replicate]
    omega
  · split <;> rename_i h2
    · simp only [List.length_take]
      omega
    · omega

/-- The first row-width comprehension leaves only rows of exactly the header
width, so the second comprehension (which keeps longer rows) gives `[]`. -/
theorem normalizeRowWidths_nil (n : Nat) (rows : List (List PyStr)) :
    normalizeRowWidths n rows = [] := by
  unfold normalizeRowWidths
  have h : ((rows.filter (fun r => r.length ≤ n)).map
      (fun r => r ++ List.replicate (n - r.length) ([] : PyStr))).filter
      (fun r => decide (n < r.length)) = [] := by
    rw [List.filter_eq_nil_iff]
    intro r hr
    obtain ⟨r', hr', rfl⟩ := List.mem_map.mp hr
    have hle : r'.length ≤ n := by simpa using (List.mem_filter.mp hr').2
    simp only [List.length_append, List.length_replicate, decide_eq_true_eq]
    omega
  rw [h, List.map_nil]

theorem keys_dictInsert (d : List (PyStr × PyStr)) (k v a : PyStr) :
    a ∈ (dictInsert d k v).map Prod.fst ↔ a ∈ d.map Prod.fst ∨ a = k := by
  unfold dictInsert
  split <;> rename_i h
  · have hk : k ∈ d.map Prod.fst := by
      obtain ⟨p, hp, hpk⟩ := List.any_eq_true.mp h
      exact List.mem_map.mpr ⟨p, hp, by simpa using hpk⟩
    have hmap : (d.map (fun p => if p.1 = k then (k, v) else p)).map Prod.fst
        = d.map Prod.fst := by
      rw [List.map_map]
      apply List.map_congr_left
      intro p _
      by_cases hp : p.1 = k <;> simp [hp]
    rw [hmap]
    constructor
    · exact Or.inl
    · rintro (ha | rfl)
      · exact ha
      · exact hk
  · simp

theorem keys_dictOfZip (ks vs : List PyStr) (hlen : ks.length ≤ vs.length)
    (a : PyStr) : a ∈ (dictOfZip ks vs).map Prod.fst ↔ a ∈ ks := by
  have main : ∀ (l : List (PyStr × PyStr)) (d : List (PyStr × PyStr)),
      a ∈ (l.foldl (fun d kv => dictInsert d kv.1 kv.2) d).map Prod.fst
        ↔ a ∈ d.map Prod.fst ∨ a ∈ l.map Prod.fst := by
    intro l
    induction l with
    | nil => intro d; simp
    | cons kv l ih =>
      intro d
      rw [List.foldl_cons, ih, keys_dictInsert]
      simp only [List.map_cons, List.mem_cons]
      tauto
  unfold dictOfZip
  rw [main, List.map_fst_zip ks vs hlen]
  simp

theorem le_foldl_max_acc {α : Type} (f : α → Nat) (l : List α) (acc : Nat) :
    acc ≤ l.foldl (fun m y => max m (f y)) acc := by
  induction l generalizing acc with
  | nil => exact le_refl _
  | cons y l ih =>
    rw [List.foldl_cons]
    exact le_trans (le_max_left _ _) (ih _)

theorem foldl_max_le {α : Type} (f : α → Nat) (x : α) :
    ∀ (l : List α), x ∈ l → ∀ acc : Nat,
      f x ≤ l.foldl (fun m y => max m (f y)) acc := by
  intro l
  induction l with
  | nil => intro h; cases h
  | cons y l ih =>
    intro hx acc
    rw [List.foldl_cons]
    rcases List.mem_cons.mp hx with rfl | hx'
    · exact le_trans (le_max_right _ _) (le_foldl_max_acc _ _ _)
    · exact ih hx' _

theorem foldl_max_eq_zero {α : Type} (f : α → Nat) :
    ∀ (l : List α) (acc : Nat), l.foldl (fun m y => max m (f y)) acc = 0 →
      acc = 0 ∧ ∀ x ∈ l, f x = 0 := by
  intro l
  induction l with
  | nil => intro acc h; simpa using h
  | cons y l ih =>
    intro acc h
    rw [List.foldl_cons] at h
    obtain ⟨hmax, hall⟩ := ih _ h
    rw [Nat.max_eq_zero_iff] at hmax
    refine ⟨hmax.1, ?_⟩
    intro x hx
    rcases List.mem_cons.mp hx with rfl | hx'
    · exact hmax.2
    · exact hall x hx'

/-! ### Output invariants -/

/-- The output-shape part of the error-handling contract: the returned dict
always carries the `headers` and `data` keys (the bare `except`-branch dict
never escapes), and every output carrying `error` has `data == []`. -/
def tableShape (t : StructuredTable) : Prop :=
  t.headers.isSome ∧ t.data.isSome ∧ (t.error.isSome → t.data = some [])

/-- The consistency invariant of a returned table: every record's keys are
exactly the returned headers (as sets); when the output carries no `error`,
`num_rows`/`num_cols` are present and equal `len(data)`/`len(headers)`; when
it does carry `error`, the two count keys are absent. -/
def tableConsistent (t : StructuredTable) : Prop :=
  (∀ rec ∈ t.data.getD [], ∀ k, k ∈ rec.map Prod.fst ↔ k ∈ t.headers.getD []) ∧
  (t.error = none →
    t.numRows = some (t.data.getD []).length ∧
    t.numCols = some (t.headers.getD []).length) ∧
  (t.error ≠ none → t.numRows = none ∧ t.numCols = none)

theorem emptyTableError_spec :
    tableShape emptyTableError ∧ tableConsistent emptyTableError := by
  unfold tableShape tableConsistent
  refine ⟨⟨rfl, rfl, fun _ => rfl⟩, ?_, fun h => Option.noConfusion h, fun _ => ⟨rfl, rfl⟩⟩
  intro rec hrec
  simp [emptyTableError] at hrec

theorem noDataTable_spec (headers : List PyStr) :
    tableShape (noDataTable headers) ∧ tableConsistent (noDataTable headers) := by
  unfold tableShape tableConsistent
  refine ⟨⟨rfl, rfl, fun _ => rfl⟩, ?_, fun h => Option.noConfusion h, fun _ => ⟨rfl, rfl⟩⟩
  intro rec hrec
  simp [noDataTable] at hrec

theorem textFallback_spec :
    tableConsistent Improved.textFallbackTable := by
  unfold tableConsistent
  refine ⟨?_, fun h => Option.noConfusion h, fun _ => ⟨rfl, rfl⟩⟩
  intro rec hrec
  simp [Improved.textFallbackTable] at hrec

theorem foldl_max_len_zero :
    ∀ (l : List (List PyStr)), (∀ r ∈ l, r = []) →
      l.foldl (fun m r => max m r.length) 0 = 0 := by
  intro l
  induction l with
  | nil => intro _; rfl
  | cons r l ih =>
    intro h
    rw [List.foldl_cons, h r (List.mem_cons_self r l), List.length_nil]
    simpa using ih (fun r hr => h r (List.mem_cons_of_mem _ hr))

/-- `pd.DataFrame(rows)` over rows that are all empty: zero columns, one
empty record per row. -/
theorem dataFrameNoCols_all_nil (rows : List (List PyStr))
    (hz : ∀ r ∈ rows, r = []) :
    dataFrameNoCols rows = ([], rows.map (fun _ => []), rows.length, 0) := by
  have hw : dfWidth rows = 0 := foldl_max_len_zero rows hz
  unfold dataFrameNoCols dfCols
  rw [hw]
  simp [dictOfZip]

/-- Every record of a column-less DataFrame has exactly the inferred column
labels as its keys. -/
theorem keys_dataFrameNoCols (rows : List (List PyStr))
    (rec : List (PyStr × PyStr)) (hrec : rec ∈ (dataFrameNoCols rows).2.1)
    (k : PyStr) : k ∈ rec.map Prod.fst ↔ k ∈ (dataFrameNoCols rows).1 := by
  unfold dataFrameNoCols at hrec ⊢
  simp only at hrec ⊢
  obtain ⟨r, hr, rfl⟩ := List.mem_map.mp hrec
  apply keys_dictOfZip
  have hle : r.length ≤ dfWidth rows := foldl_max_le List.length r rows hr 0
  simp only [dfCols, List.length_map, List.length_range, List.length_append,
    List.length_replicate]
  omega

/-- Master lemma for the shared `if headers and rows: ...` finishing block:
when every candidate row has been normalised to exactly the header width, the
block returns (never raises), and its output is well-shaped and consistent. -/
theorem assembleTable_spec (headers : List PyStr) (rows : List (List PyStr))
    (hlen : ∀ r ∈ rows, r.length = headers.length) :
    ∃ t, assembleTable headers rows = some t ∧ tableShape t ∧ tableConsistent t := by
  unfold assembleTable
  split
  case isTrue hbr =>
    have hall : (rows.all fun r => decide (r.length = headers.length)) = true := by
      rw [List.all_eq_true]
      intro r hr
      simpa using hlen r hr
    have hdf : dataFrameRecords headers rows
        = some (rows.map (fun r => dictOfZip headers r), rows.length, headers.length) := by
      unfold dataFrameRecords
      rw [if_pos hall]
    rw [hdf]
    refine ⟨_, rfl, ?_⟩
    unfold tableShape tableConsistent
    refine ⟨⟨rfl, rfl, fun h => Bool.noConfusion h⟩, ?_, fun _ => ⟨?_, rfl⟩,
      fun h => absurd rfl h⟩
    · intro rec hrec k
      simp only [Option.getD_some] at hrec ⊢
      obtain ⟨r, hr, rfl⟩ := List.mem_map.mp hrec
      exact keys_dictOfZip headers r (le_of_eq (hlen r hr).symm) k
    · simp
  case isFalse hbr =>
    split
    case isTrue hrows =>
      have hhe : headers = [] := by
        by_contra hne
        exact hbr ⟨hne, hrows⟩
      subst hhe
      have hz : ∀ r ∈ rows, r = [] := by
        intro r hr
        have := hlen r hr
        simpa [List.length_eq_zero] using this
      have hdfn := dataFrameNoCols_all_nil rows hz
      rw [hdfn]
      refine ⟨_, rfl, ?_⟩
      unfold tableShape tableConsistent
      refine ⟨⟨rfl, rfl, fun h => Bool.noConfusion h⟩, ?_, fun _ => ⟨?_, rfl⟩,
        fun h => absurd rfl h⟩
      · intro rec hrec k
        simp only [Option.getD_some] at hrec ⊢
        obtain ⟨r, hr, rfl⟩ := List.mem_map.mp hrec
        simp
      · simp
    case isFalse =>
      exact ⟨_, rfl, (noDataTable_spec headers).1, (noDataTable_spec headers).2⟩

/-! ### Per-parser facts -/

theorem mdRows_length (s : PyStr) :
    ∀ r ∈ mdRows s, r.length = (mdHeaders s).length := by
  intro r hr
  obtain ⟨row, _, hg⟩ := mem_pyAppendLoop hr
  simp only at hg
  split at hg
  · cases hg
    exact mdNormalize_length _ _
  · exact Option.noConfusion hg

theorem ssRows_length (s : PyStr) :
    ∀ r ∈ Improved.ssRows s, r.length = (Improved.ssHeaders s).length := by
  intro r hr
  obtain ⟨row, _, hg⟩ := mem_pyAppendLoop hr
  simp only at hg
  split at hg
  · cases hg
    exact ssNormalize_length _ _
  · exact Option.noConfusion hg

theorem finRows_length (lines : List PyStr) :
    ∀ r ∈ Improved.finRows lines, r.length = (Improved.finHeaders lines).length := by
  intro r hr
  obtain ⟨row, _, hg⟩ := mem_pyAppendLoop hr
  simp only at hg
  split at hg
  · exact Option.noConfusion hg
  · split at hg
    · cases hg
      exact ssNormalize_length _ _
    · exact Option.noConfusion hg

/-- When the financial parser ends with an empty header list, there were no
data rows at all: the synthesised default headers are empty only when the
maximal observed column count is zero, and every data row splits into at
least one cell. -/
theorem finHeaderData_nil_of_headers_nil (lines : List PyStr)
    (h : Improved.finHeaders lines = []) :
    (Improved.finHeaderData lines).2 = [] := by
  unfold Improved.finHeaders at h
  dsimp only at h
  split at h
  case isTrue h0 => exact absurd h h0
  case isFalse h0 =>
    split at h
    case isTrue h3 =>
      rw [List.take_eq_nil_iff] at h
      rcases h with h | h
      · omega
      · simp at h
    case isFalse h3 =>
      rw [List.take_eq_nil_iff] at h
      rcases h with h | h
      · obtain ⟨-, hall⟩ :=
          foldl_max_eq_zero (fun r => (pySplitWs2 (pyStrip r)).length)
            (Improved.finHeaderData lines).2 0 h
        cases hd2 : (Improved.finHeaderData lines).2 with
        | nil => rfl
        | cons x xs =>
          have hx := hall x (by rw [hd2]; exact List.mem_cons_self x xs)
          rw [List.length_eq_zero] at hx
          exact absurd hx (pySplitWs2_ne_nil (pyStrip x))
      · simp at h

theorem finRows_nil_of_headers_nil (lines : List PyStr)
    (h : Improved.finHeaders lines = []) : Improved.finRows lines = [] := by
  unfold Improved.finRows
  rw [finHeaderData_nil_of_headers_nil lines h]
  rfl

theorem parse_markdown_table_spec (s : PyStr) :
    ∃ t, parse_markdown_table s = some t ∧ tableShape t ∧ tableConsistent t :=
  assembleTable_spec _ _ (mdRows_length s)

theorem parse_space_separated_table_spec (s : PyStr) :
    ∃ t, Improved.parse_space_separated_table s = some t ∧
      tableShape t ∧ tableConsistent t := by
  unfold Improved.parse_space_separated_table
  split
  · exact ⟨_, rfl, emptyTableError_spec.1, emptyTableError_spec.2⟩
  · exact assembleTable_spec _ _ (ssRows_length s)

theorem parse_financial_table_spec (s : PyStr) :
    ∃ t, Improved.parse_financial_table s = some t ∧
      tableShape t ∧ tableConsistent t := by
  unfold Improved.parse_financial_table
  split
  · exact ⟨_, rfl, emptyTableError_spec.1, emptyTableError_spec.2⟩
  · exact assembleTable_spec _ _ (finRows_length (tableLines s))

theorem parse_fixed_width_table_improved_spec (s : PyStr) :
    ∃ t, Improved.parse_fixed_width_table s = some t ∧
      tableShape t ∧ tableConsistent t := by
  unfold Improved.parse_fixed_width_table
  dsimp only
  split
  · exact ⟨_, rfl, emptyTableError_spec.1, emptyTableError_spec.2⟩
  · exact ⟨_, rfl, (noDataTable_spec []).1, (noDataTable_spec []).2⟩

theorem htmlBody_spec (headers : List PyStr) (trs : List (List PyStr)) :
    ∃ t, htmlBody headers trs = some t ∧ tableShape t ∧ tableConsistent t := by
  unfold htmlBody
  split
  case isTrue hbr =>
    rw [normalizeRowWidths_nil]
    refine ⟨_, rfl, ?_⟩
    unfold tableShape tableConsistent
    refine ⟨⟨rfl, rfl, fun h => Bool.noConfusion h⟩, ?_, fun _ => ⟨rfl, ?_⟩,
      fun h => absurd rfl h⟩
    · intro rec hrec
      simp at hrec
    · simp
  case isFalse hbr =>
    split
    case isTrue hrows =>
      refine ⟨_, rfl, ?_⟩
      have hhe : headers = [] := by
        by_contra hne
        exact hbr ⟨hne, hrows⟩
      unfold tableShape tableConsistent
      refine ⟨⟨rfl, rfl, fun h => Bool.noConfusion h⟩, ?_, fun _ => ⟨?_, ?_⟩,
        fun h => absurd rfl h⟩
      · intro rec hrec k
        simp only [Option.getD_some] at hrec ⊢
        rw [if_neg (by simp [hhe])]
        exact keys_dataFrameNoCols _ rec hrec k
      · simp [dataFrameNoCols]
      · simp only [Option.getD_some]
        rw [if_neg (by simp [hhe])]
        simp [dataFrameNoCols, dfCols]
    case isFalse =>
      exact ⟨_, rfl, (noDataTable_spec []).1, (noDataTable_spec []).2⟩

theorem parse_html_table_spec (headers : List PyStr) (trs : List (List PyStr)) :
    tableShape (parse_html_table headers trs) ∧
      tableConsistent (parse_html_table headers trs) := by
  obtain ⟨t, ht, hsh, hc⟩ := htmlBody_spec headers trs
  unfold parse_html_table
  rw [ht]
  exact ⟨hsh, hc⟩

theorem parse_text_table_spec (s : PyStr) :
    tableShape (Improved.parse_text_table s) ∧
      tableConsistent (Improved.parse_text_table s) := by
  unfold Improved.parse_text_table
  split
  · obtain ⟨t, ht, hsh, hc⟩ := parse_markdown_table_spec s
    rw [ht]
    exact ⟨hsh, hc⟩
  · split
    · obtain ⟨t, ht, hsh, hc⟩ := parse_financial_table_spec s
      rw [ht]
      exact ⟨hsh, hc⟩
    · split
      · obtain ⟨t, ht, hsh, hc⟩ := parse_space_separated_table_spec s
        rw [ht]
        exact ⟨hsh, hc⟩
      · obtain ⟨t, ht, hsh, hc⟩ := parse_fixed_width_table_improved_spec s
        rw [ht]
        exact ⟨hsh, hc⟩

/-! ### Claims -/

/-- C1 (counterexample): on the exact three-line input of the claim (separator
cells flanked by single spaces, two spaces after `30`), `parse_text_table`
does not return headers `["Name", "Age"]`: the markdown trigger
(`'-+-' in text` or `'---|---' in text`) misses this separator line, so the
block goes to the space-separated parser. -/
theorem c1_markdown_round_trip_cex :
    (Improved.parse_text_table (toStr "| Name | Age |\n| ---- | --- |\n| John | 30  |")).headers
      ≠ some [toStr "Name", toStr "Age"] := by
  decide

/-- C1 (amended): the claimed input is classified as space-separated and
yields one single header `"| Name | Age |"` with two one-cell records and no
error; the claimed round-trip output is produced for the variant whose
separator line `|----|---|` has no spaces inside the cells. -/
theorem c1_markdown_round_trip_amended :
    Improved.classify (toStr "| Name | Age |\n| ---- | --- |\n| John | 30  |")
      = Improved.ParserKind.space ∧
    Improved.parse_text_table (toStr "| Name | Age |\n| ---- | --- |\n| John | 30  |")
      = { headers := some [toStr "| Name | Age |"],
          data := some [[(toStr "| Name | Age |", toStr "| ---- | --- |")],
                        [(toStr "| Name | Age |", toStr "| John | 30")]],
          numRows := some 2, numCols := some 1 } ∧
    Improved.parse_text_table (toStr "| Name | Age |\n|----|---|\n| John | 30  |")
      = { headers := some [toStr "Name", toStr "Age"],
          data := some [[(toStr "Name", toStr "John"), (toStr "Age", toStr "30")]],
          numRows := some 1, numCols := some 2 } := by
  refine ⟨by decide, by decide, by decide⟩

/-- C2: in `parse_html_table` (identical in both files) and in the old
`_parse_fixed_width_table`, whenever non-empty headers and at least one
candidate row are extracted, the two successive row-width comprehensions
leave zero rows, so the output has `data == []` and `num_rows == 0`. -/
theorem c2_normalization_empties_rows
    (headers : List PyStr) (trs : List (List PyStr)) (s : PyStr)
    (hd : List PyStr) (rws : List (List PyStr))
    (h1 : headers ≠ []) (h2 : htmlCandidateRows headers trs ≠ [])
    (h3 : tableLines s ≠ [])
    (h4 : Orig.fwExtract (tableLines s) = some (hd, rws))
    (h5 : hd ≠ []) (h6 : rws ≠ []) :
    ((parse_html_table headers trs).data = some [] ∧
     (parse_html_table headers trs).numRows = some 0) ∧
    ∃ t, Orig.parse_fixed_width_table s = some t ∧
      t.data = some [] ∧ t.numRows = some 0 := by
  constructor
  · have hbody : htmlBody headers trs = some
        { headers := some (if headers ≠ [] then headers else headers),
          data := some [], numRows := some 0, numCols := some headers.length } := by
      unfold htmlBody
      rw [if_pos ⟨h1, h2⟩, normalizeRowWidths_nil]
      rfl
    unfold parse_html_table
    rw [hbody]
    exact ⟨rfl, rfl⟩
  · have hfa : Orig.fwAssemble hd rws = some
        { headers := some hd, data := some [],
          numRows := some 0, numCols := some hd.length } := by
      unfold Orig.fwAssemble
      rw [if_pos ⟨h5, h6⟩, normalizeRowWidths_nil]
      rfl
    refine ⟨{ headers := some hd, data := some [],
              numRows := some 0, numCols := some hd.length }, ?_, rfl, rfl⟩
    unfold Orig.parse_fixed_width_table
    dsimp only
    rw [if_neg h3, h4]
    exact hfa

/-- C2 (witness): a concrete HTML extraction and a concrete two-line
fixed-width block on which both normalisation pipelines drop every row. -/
theorem c2_normalization_empties_rows_witness :
    ((parse_html_table [toStr "A"] [[toStr "x"], [toStr "y"]]).data = some [] ∧
     (parse_html_table [toStr "A"] [[toStr "x"], [toStr "y"]]).numRows = some 0) ∧
    ∃ t, Orig.parse_fixed_width_table (toStr "A B\nC D") = some t ∧
      t.data = some [] ∧ t.numRows = some 0 :=
  c2_normalization_empties_rows [toStr "A"] [[toStr "x"], [toStr "y"]]
    (toStr "A B\nC D") [[], toStr "A", toStr "B"] [[[], toStr "C", toStr "D"]]
    (by decide) (by decide) (by decide) (by decide) (by decide) (by decide)

/-- C3 (counterexample): on the empty-string input the returned dict carries
no `num_rows` key at all, so `num_rows` does not equal the number of records
in `data` (which is present and empty). -/
theorem c3_row_header_consistency_cex :
    (Improved.parse_text_table (toStr "")).numRows
      ≠ some ((Improved.parse_text_table (toStr "")).data.getD []).length := by
  decide

/-- C3 (amended): for every input, every record's key set equals the returned
headers; on outputs without `error` the keys `num_rows`/`num_cols` are
present and equal `len(data)`/`len(headers)`; outputs with `error` omit both
count keys. -/
theorem c3_row_header_consistency_amended :
    (∀ s : PyStr, tableConsistent (Improved.parse_text_table s)) ∧
    ∀ (headers : List PyStr) (trs : List (List PyStr)),
      tableConsistent (parse_html_table headers trs) :=
  ⟨fun s => (parse_text_table_spec s).2,
   fun headers trs => (parse_html_table_spec headers trs).2⟩

/-- C3 (witness): on a concrete error-free space-separated table the
`num_rows` key equals the number of records. -/
theorem c3_row_header_consistency_witness :
    (Improved.parse_text_table (toStr "A  B\nc  d\ne  f")).numRows
      = some ((Improved.parse_text_table (toStr "A  B\nc  d\ne  f")).data.getD []).length :=
  ((c3_row_header_consistency_amended.1 (toStr "A  B\nc  d\ne  f")).2.1 (by decide)).1

/-- C4: for every input the embedded `parse_text_table` and
`parse_html_table` return a table value (the modelled pandas failure, the
only raising operation in the bodies, never fires because the rows are
normalised to the header width first), the returned dict always carries the
`headers` and `data` keys, and every output carrying `error` has
`data == []`. -/
theorem c4_total_no_exception :
    (∀ s : PyStr, tableShape (Improved.parse_text_table s)) ∧
    ∀ (headers : List PyStr) (trs : List (List PyStr)),
      tableShape (parse_html_table headers trs) :=
  ⟨fun s => (parse_text_table_spec s).1,
   fun headers trs => (parse_html_table_spec headers trs).1⟩

/-- C4 (witness): the empty input produces an error output that still
carries `data == []`. -/
theorem c4_total_no_exception_witness :
    (Improved.parse_text_table (toStr "")).data = some [] :=
  (c4_total_no_exception.1 (toStr "")).2.2 (by decide)

/-- C5 (counterexample): a block with a `Total:` line but no `$` is routed to
the space-separated parser, which does not skip summary rows: the `Total:`
line appears as the second record of the output. -/
theorem c5_summary_row_cex :
    Improved.classify (toStr "Item  Qty\nApple  5\nTotal:  5")
      = Improved.ParserKind.space ∧
    (toStr "Total").isPrefixOf (pyStrip (toStr "Total:  5")) = true ∧
    (Improved.parse_text_table (toStr "Item  Qty\nApple  5\nTotal:  5")).data
      = some [[(toStr "Item", toStr "Apple"), (toStr "Qty", toStr "5")],
              [(toStr "Item", toStr "Total:"), (toStr "Qty", toStr "5")]] := by
  refine ⟨by decide, by decide, by decide⟩

/-- C5 (amended): when the block is handled by the financial parser, every
record of the output stems from a data line that does not begin (after
stripping) with `Total` or `Subtotal`; other parsers (for example the
space-separated one, chosen when the block has no `$`) do not skip summary
rows. -/
theorem c5_summary_row_amended (s : PyStr) (t : StructuredTable)
    (rec : List (PyStr × PyStr))
    (ht : Improved.parse_financial_table s = some t)
    (hrec : rec ∈ t.data.getD []) :
    ∃ line ∈ (Improved.finHeaderData (tableLines s)).2,
      (toStr "Total").isPrefixOf (pyStrip line) = false ∧
      (toStr "Subtotal").isPrefixOf (pyStrip line) = false ∧
      rec = dictOfZip (Improved.finHeaders (tableLines s))
        (Improved.ssNormalize (Improved.finHeaders (tableLines s)).length
          (pySplitWs2 (pyStrip line))) := by
  unfold Improved.parse_financial_table at ht
  split at ht
  · simp only [Option.some.injEq] at ht
    subst ht
    simp [emptyTableError] at hrec
  · unfold assembleTable at ht
    split at ht
    case isTrue hbr =>
      have hall : ((Improved.finRows (tableLines s)).all
          fun r => decide (r.length = (Improved.finHeaders (tableLines s)).length)) = true := by
        rw [List.all_eq_true]
        intro r hr
        simpa using finRows_length (tableLines s) r hr
      unfold dataFrameRecords at ht
      rw [if_pos hall] at ht
      simp only [Option.map_some', Option.some.injEq] at ht
      subst ht
      simp only [Option.getD_some] at hrec
      obtain ⟨r, hr, rfl⟩ := List.mem_map.mp hrec
      obtain ⟨line, hline, hg⟩ := mem_pyAppendLoop hr
      simp only at hg
      split at hg
      · exact Option.noConfusion hg
      case isFalse hpre =>
        split at hg
        · simp only [Option.some.injEq] at hg
          rw [Bool.or_eq_true, not_or] at hpre
          refine ⟨line, hline, ?_, ?_, by rw [hg]⟩
          · exact Bool.eq_false_iff.mpr hpre.1
          · exact Bool.eq_false_iff.mpr hpre.2
        · exact Option.noConfusion hg
    case isFalse hbr =>
      split at ht
      case isTrue hrows =>
        have hhe : Improved.finHeaders (tableLines s) = [] := by
          by_contra hne
          exact hbr ⟨hne, hrows⟩
        exact absurd (finRows_nil_of_headers_nil _ hhe) hrows
      case isFalse =>
        simp only [Option.some.injEq] at ht
        subst ht
        simp [noDataTable] at hrec

/-- C5 (witness): the financial parser applied to a concrete ledger block
keeps only the non-summary line. -/
theorem c5_summary_row_witness :
    ∃ line ∈ (Improved.finHeaderData (tableLines (toStr "Item  Price\nApple  $5\nTotal:  $5"))).2,
      (toStr "Total").isPrefixOf (pyStrip line) = false ∧
      (toStr "Subtotal").isPrefixOf (pyStrip line) = false ∧
      [(toStr "Item", toStr "Apple"), (toStr "Price", toStr "$5")]
        = dictOfZip (Improved.finHeaders (tableLines (toStr "Item  Price\nApple  $5\nTotal:  $5")))
            (Improved.ssNormalize
              (Improved.finHeaders (tableLines (toStr "Item  Price\nApple  $5\nTotal:  $5"))).length
              (pySplitWs2 (pyStrip line))) :=
  c5_summary_row_amended (toStr "Item  Price\nApple  $5\nTotal:  $5")
    { headers := some [toStr "Item", toStr "Price"],
      data := some [[(toStr "Item", toStr "Apple"), (toStr "Price", toStr "$5")]],
      numRows := some 1, numCols := some 2 }
    [(toStr "Item", toStr "Apple"), (toStr "Price", toStr "$5")]
    (by decide) (by decide)

/-- C6 (counterexample): the empty-string input produces the error string
`"Empty table"`, not the claimed exact string `"No data found in table"`. -/
theorem c6_empty_input_error_cex :
    (Improved.parse_text_table (toStr "")).headers = some [] ∧
    (Improved.parse_text_table (toStr "")).data = some [] ∧
    (Improved.parse_text_table (toStr "")).error = some (toStr "Empty table") ∧
    toStr "Empty table" ≠ toStr "No data found in table" := by
  refine ⟨by decide, by decide, by decide, by decide⟩

/-- C6 (amended): the empty-string input yields empty headers and data with
error `"Empty table"` (in both source files); when the input has at least one
non-empty line but extraction produces empty headers and no rows, the error
is `"No data found in table"`. -/
theorem c6_empty_input_error_amended :
    Improved.parse_text_table (toStr "") = emptyTableError ∧
    Orig.parse_text_table (toStr "") = emptyTableError ∧
    ∀ s : PyStr, tableLines s ≠ [] →
      Improved.parse_fixed_width_table s = some (noDataTable []) := by
  refine ⟨by decide, by decide, ?_⟩
  intro s hs
  unfold Improved.parse_fixed_width_table
  dsimp only
  rw [if_neg hs]

/-- C6 (witness): a non-empty one-line input reaches the
`"No data found in table"` branch of the improved fixed-width parser. -/
theorem c6_empty_input_error_witness :
    Improved.parse_fixed_width_table (toStr "xyz") = some (noDataTable []) :=
  c6_empty_input_error_amended.2.2 (toStr "xyz") (by decide)

/-- C7 (counterexample): on a markdown block with a header line and a
separator line but zero data lines, the markdown parser sets the error
`"No data found in table"` instead of returning an error-free empty table. -/
theorem c7_zero_data_lines_cex :
    parse_markdown_table (toStr "| A | B |\n| --- | --- |")
      = some (noDataTable [toStr "A", toStr "B"]) ∧
    (noDataTable [toStr "A", toStr "B"]).error ≠ none := by
  refine ⟨by decide, by decide⟩

/-- C7 (amended): for every markdown block whose non-empty stripped lines are
exactly a header line and a separator line (zero data lines), the markdown
parser returns empty data together with `error = "No data found in table"`
and the extracted headers. -/
theorem c7_zero_data_lines_amended (s : PyStr) (h : (mdLines s).length = 2) :
    parse_markdown_table s = some (noDataTable (mdHeaders s)) := by
  have hrows : mdRows s = [] := by
    unfold mdRows
    have hdrop : (mdLines s).drop 2 = [] := by
      rw [List.drop_eq_nil_iff]
      omega
    rw [hdrop]
    rfl
  unfold parse_markdown_table assembleTable
  rw [hrows, if_neg (by simp), if_neg (by simp)]

/-- C7 (witness): the two-line markdown block `| X |` over `|---|`. -/
theorem c7_zero_data_lines_witness :
    parse_markdown_table (toStr "| X |\n|---|")
      = some (noDataTable (mdHeaders (toStr "| X |\n|---|"))) :=
  c7_zero_data_lines_amended (toStr "| X |\n|---|") (by decide)

/-- C8 (counterexample): a two-line block (one newline character) with a
double-space run that matches neither the markdown nor the financial trigger
is routed to the fixed-width catch-all, not to the space-separated parser:
the dispatcher tests `text.count('\n') >= 2`, not "at least two lines". -/
theorem c8_dispatch_space_cex :
    Improved.mdTrigger (toStr "Item  Qty\nApple  5") = false ∧
    Improved.finTrigger (toStr "Item  Qty\nApple  5") = false ∧
    2 ≤ (pyLines (toStr "Item  Qty\nApple  5")).length ∧
    (pyLines (toStr "Item  Qty\nApple  5")).any
      (fun l => isSubstr (toStr "  ") l) = true ∧
    Improved.classify (toStr "Item  Qty\nApple  5")
      = Improved.ParserKind.fixedWidth := by
  refine ⟨by decide, by decide, by decide, by decide, by decide⟩

/-- C8 (amended): every block that matches neither the markdown nor the
financial trigger, contains at least two newline characters (at least three
`split('\n')` parts) and has a line with a run of at least two consecutive
spaces is routed to the space-separated parser. -/
theorem c8_dispatch_space_amended (s : PyStr)
    (hmd : Improved.mdTrigger s = false) (hfin : Improved.finTrigger s = false)
    (hn : 2 ≤ s.count '\n')
    (hds : (pyLines s).any (fun l => isSubstr (toStr "  ") l) = true) :
    Improved.classify s = Improved.ParserKind.space ∧
    Improved.parse_text_table s
      = Improved.runBody (Improved.parse_space_separated_table s) := by
  have hss : Improved.ssTrigger s = true := by
    unfold Improved.ssTrigger
    rw [hds]
    simp [hn]
  constructor
  · unfold Improved.classify
    simp [hmd, hfin, hss]
  · unfold Improved.parse_text_table
    simp [hmd, hfin, hss]

/-- C8 (witness): a three-line block with a double-space run and no markdown
or financial trigger. -/
theorem c8_dispatch_space_witness :
    Improved.classify (toStr "a  b\nc\nd") = Improved.ParserKind.space ∧
    Improved.parse_text_table (toStr "a  b\nc\nd")
      = Improved.runBody (Improved.parse_space_separated_table (toStr "a  b\nc\nd")) :=
  c8_dispatch_space_amended (toStr "a  b\nc\nd")
    (by decide) (by decide) (by decide) (by decide)

/-- C9: the improved `_parse_fixed_width_table` never extracts any content:
an input with no non-empty line yields the empty shape with error
`"Empty table"`, and any other input yields the empty shape with error
`"No data found in table"`. -/
theorem c9_fixed_width_improved_empty (s : PyStr) :
    Improved.parse_fixed_width_table s
      = if tableLines s = [] then some emptyTableError
        else some (noDataTable []) := by
  by_cases h : tableLines s = []
  · rw [if_pos h]
    unfold Improved.parse_fixed_width_table
    dsimp only
    rw [if_pos h]
  · rw [if_neg h]
    unfold Improved.parse_fixed_width_table
    dsimp only
    rw [if_neg h]

/-- C10: in the markdown parser (identical in both files), the cells of each
data line are exactly its non-empty trimmed pipe-separated segments in
order — empty cells are discarded before width normalisation — and on a row
with an interior empty cell the later cells shift left and the padding is
appended at the end (the `b` below lands under `H2` and `H3` gets the pad). -/
theorem c10_markdown_cell_discard :
    (∀ s : PyStr, mdRows s = ((mdLines s).drop 2).filterMap (fun row =>
        if mdCells row ≠ [] then some (mdNormalize (mdHeaders s).length (mdCells row))
        else none)) ∧
    parse_markdown_table (toStr "| H1 | H2 | H3 |\n|---|---|---|\n| a |  | b |")
      = some { headers := some [toStr "H1", toStr "H2", toStr "H3"],
               data := some [[(toStr "H1", toStr "a"), (toStr "H2", toStr "b"),
                              (toStr "H3", toStr "")]],
               numRows := some 1, numCols := some 3 } := by
  constructor
  · intro s
    unfold mdRows
    rw [pyAppendLoop_eq_filterMap]
  · decide

end ClaryAI
